import Mathlib

/-!
Verification of the Svelte task-management dashboard (`src/App.svelte`).

The script section of `App.svelte` is shallowly embedded below:
  - `Task`, `TaskStatus` mirror the TypeScript type definitions;
  - `filteredTasks` mirrors the derived store computing the visible set;
  - `addTask`, `saveEditedTask`, `deleteTask` mirror the event handlers'
    effect on the task collection (JS strings here are ASCII, so
    JavaScript's UTF-16 `.length` agrees with `String.length`);
  - a small transition system (`StoreStep` / `UIOp` / `AddFlowEvent`)
    models sequences of handler invocations, including the
    simulated-latency add flow where the handler re-reads the draft
    fields after its `await`.
-/

set_option maxRecDepth 8192

namespace TaskApp

/-- The three-valued status enumeration from `App.svelte`
(`'Pending' | 'In-Progress' | 'Completed'`). -/
inductive TaskStatus
  | Pending
  | InProgress
  | Completed
deriving DecidableEq

/-- The `Task` interface from `App.svelte`. -/
structure Task where
  id : String
  title : String
  description : String
  status : TaskStatus
  createdAt : String
deriving DecidableEq

/-- `const MAX_CHARACTERS = 500` from `App.svelte`. -/
def MAX_CHARACTERS : Nat := 500

/-- JavaScript `String.prototype.trim`: strip whitespace from both ends. -/
def jsTrim (s : String) : String :=
  ⟨((s.data.dropWhile Char.isWhitespace).reverse.dropWhile Char.isWhitespace).reverse⟩

/-- JavaScript `String.prototype.toLowerCase` (ASCII fragment). -/
def jsToLower (s : String) : String :=
  ⟨s.data.map Char.toLower⟩

/-- Boolean test that `sub` occurs as a contiguous sublist of `l`. -/
def listContains (sub : List Char) : List Char → Bool
  | [] => sub.isEmpty
  | b :: bs => sub.isPrefixOf (b :: bs) || listContains sub bs

/-- JavaScript `String.prototype.includes`: `jsIncludes s sub` holds when
`sub` occurs as a substring of `s`. -/
def jsIncludes (s sub : String) : Bool :=
  listContains sub.data s.data

/-- The status filter: the UI's `'All'` sentinel or one concrete status
(`filterStatus : TaskStatus | 'All'`). -/
inductive StatusFilter
  | All
  | only (s : TaskStatus)
deriving DecidableEq

/-- The first stage of the derived store in `App.svelte`:
`$filterStatus === 'All' ? $tasks : $tasks.filter(task => task.status === $filterStatus)`. -/
def filterByStatus (ts : List Task) (f : StatusFilter) : List Task :=
  match f with
  | .All => ts
  | .only s => ts.filter (fun t => decide (t.status = s))

/-- The search predicate of the derived store:
`task.title.toLowerCase().includes($searchTerm.toLowerCase()) ||
 task.description.toLowerCase().includes($searchTerm.toLowerCase())`. -/
def matchesSearch (q : String) (t : Task) : Bool :=
  jsIncludes (jsToLower t.title) (jsToLower q) ||
  jsIncludes (jsToLower t.description) (jsToLower q)

/-- The derived store `filteredTasks` of `App.svelte`: status filter first,
then (only for a non-empty, truthy, search term) the substring filter. -/
def filteredTasks (ts : List Task) (q : String) (f : StatusFilter) : List Task :=
  let byStatus := filterByStatus ts f
  if q = "" then byStatus else byStatus.filter (matchesSearch q)

/-- Status predicate as the spec words it: either the filter is All or the
task's status equals the filter. -/
def statusMatches (f : StatusFilter) (t : Task) : Bool :=
  match f with
  | .All => true
  | .only s => decide (t.status = s)

/-- Search predicate as the spec words it: an empty search term performs no
filtering, a non-empty one requires a lowercased substring match on title
or description. -/
def searchPasses (q : String) (t : Task) : Bool :=
  decide (q = "") || matchesSearch q t

/-- Reference definition of the visible set, from the spec's words: keep
exactly the tasks that satisfy both the status predicate and the search
predicate, in the input's order (a single stable filter pass). -/
def filteredTasksRef (ts : List Task) (q : String) (f : StatusFilter) : List Task :=
  ts.filter (fun t => statusMatches f t && searchPasses q t)

/-- The `addTask` handler's effect on the task collection (its synchronous
completion): the guard
`if (!newTaskTitle.trim() || newTaskDescription.length > MAX_CHARACTERS) return;`
followed by `tasks.update(currentTasks => [...currentTasks, newTask])`,
with the fresh `crypto.randomUUID()` and date passed in as `idv`/`date`. -/
def addTask (ts : List Task) (title desc : String) (st : TaskStatus)
    (idv date : String) : List Task :=
  if jsTrim title = "" ∨ MAX_CHARACTERS < desc.length then ts
  else ts ++ [⟨idv, title, desc, st, date⟩]

/-- The `saveEditedTask` handler's effect on the task collection:
`if (currentTask && currentTask.description.length <= MAX_CHARACTERS)` then
`tasks.update(ts => ts.map(task => task.id === currentTask?.id ? currentTask : task))`. -/
def saveEditedTask (ts : List Task) (cur : Option Task) : List Task :=
  match cur with
  | none => ts
  | some c =>
    if c.description.length ≤ MAX_CHARACTERS then
      ts.map (fun t => if t.id = c.id then c else t)
    else ts

/-- The `deleteTask` handler's effect on the task collection:
`if (pendingTaskToDelete) tasks.update(ts => ts.filter(task => task.id !== pendingTaskToDelete?.id))`. -/
def deleteTask (ts : List Task) (pending : Option Task) : List Task :=
  match pending with
  | none => ts
  | some p => ts.filter (fun t => !(decide (t.id = p.id)))

/-- Description of the first bootstrap task (491 characters). -/
def seedDescription1 : String :=
  "Create a clean and modern design for the task dashboard, including wireframes and mockups that are responsive on all devices. The design should be simple, intuitive, and easy to navigate for users of all skill levels. Pay special attention to color palettes and typography to create a visually appealing interface. It is important to create a comprehensive design system that will allow for easy scalability in the future. The design should also include mockups for both light and dark mode."

/-- Description of the second bootstrap task (417 characters). -/
def seedDescription2 : String :=
  "Develop the form and logic for adding new tasks to the list. This includes input validation, status selection, and a confirmation dialog. The implementation should be robust and handle potential errors gracefully. It is a good idea to consider both server-side and client-side validation to ensure data integrity. The task creation form should also be accessible to users with disabilities, following WCAG guidelines."

/-- Description of the third bootstrap task (332 characters). -/
def seedDescription3 : String :=
  "Initialize the Svelte, TypeScript, and Tailwind CSS project using Vite or SvelteKit. Configure ESLint and Prettier for code quality and consistency. Set up a component-based architecture for reusability and maintainability across the entire application. It is important to document all the setup steps clearly in the project README."

/-- Description of the fourth bootstrap task (357 characters). -/
def seedDescription4 : String :=
  "Implement functionality to search by title and description and filter by task status. This feature should be fast and responsive, providing immediate feedback to the user as they type or change the filter. The search algorithm should be efficient and case-insensitive. Consider adding a debounce function to the search input to prevent excessive re-renders."

/-- The `initialTasks` bootstrap seed of `App.svelte`, verbatim; the
`createdAt` values are computed from the clock at runtime and are passed
in as parameters. -/
def initialTasks (d1 d2 d3 d4 : String) : List Task :=
  [⟨"1",
    "Design Dashboard UI with a focus on a clean and modern user experience",
    seedDescription1,
    .InProgress, d1⟩,
   ⟨"2",
    "Implement Task Creation and management functionality",
    seedDescription2,
    .Completed, d2⟩,
   ⟨"3",
    "Set up Project Environment and configure development tools",
    seedDescription3,
    .Completed, d3⟩,
   ⟨"4",
    "Add a comprehensive Search and Filter feature to the task list",
    seedDescription4,
    .Pending, d4⟩]

/-- One store-affecting handler invocation, run to completion: the
bootstrap `tasks.set(initialTasks)` from `onMount`, an `addTask`
submission with arbitrary draft fields, a `saveEditedTask` with an
arbitrary `currentTask`, or a confirmed `deleteTask`. -/
inductive StoreStep
  | init (d1 d2 d3 d4 : String)
  | add (title desc : String) (st : TaskStatus) (idv date : String)
  | save (cur : Option Task)
  | del (pending : Option Task)

/-- Effect of one handler invocation on the task collection. -/
def applyStep (ts : List Task) : StoreStep → List Task
  | .init d1 d2 d3 d4 => initialTasks d1 d2 d3 d4
  | .add title desc st idv date => addTask ts title desc st idv date
  | .save cur => saveEditedTask ts cur
  | .del pending => deleteTask ts pending

/-- Task collection reached by a sequence of handler invocations, starting
from the initial `writable<Task[]>([])`. -/
def runSteps (steps : List StoreStep) : List Task :=
  steps.foldl applyStep []

/-- The component state of `App.svelte` touched by the modal handlers. -/
structure AppState where
  tasks : List Task
  isAddModalOpen : Bool
  isEditModalOpen : Bool
  isDeleteModalOpen : Bool
  isLoading : Bool
  currentTask : Option Task
  newTaskTitle : String
  newTaskDescription : String
  newTaskStatus : TaskStatus
  pendingTaskToDelete : Option Task
  confirmMessage : String
deriving DecidableEq

/-- The component state as initialised at the top of the script. -/
def initialAppState : AppState :=
  ⟨[], false, false, false, false, none, "", "", .Pending, none, ""⟩

/-- The open/cancel/submit operations of the three modal flows. -/
inductive UIOp
  | openAdd
  | cancelAdd
  | submitAdd (idv date : String)
  | openEdit (t : Task)
  | cancelEdit
  | submitEdit
  | openDelete (t : Task)
  | cancelDelete
  | confirmDelete

/-- Effect of each modal handler on the component state, handlers run to
completion (the asynchronous `addTask` is taken atomically here; its
interleavings are modelled separately by `addFlowStep`):
`openAdd` is the header button's `isAddModalOpen = true`; `cancelAdd` is
`handleCancelAddTask`; `submitAdd` is `addTask`; `openEdit` is
`openEditModal`; `cancelEdit` is the edit modal's `isEditModalOpen = false`;
`submitEdit` is `saveEditedTask`; `openDelete` is `openDeleteModal`;
`cancelDelete` is `closeDeleteModal`; `confirmDelete` is `deleteTask`
followed by `closeDeleteModal`. -/
def applyUI (s : AppState) : UIOp → AppState
  | .openAdd => { s with isAddModalOpen := true }
  | .cancelAdd =>
    { s with newTaskTitle := "", newTaskDescription := "",
             newTaskStatus := .Pending, isAddModalOpen := false }
  | .submitAdd idv date =>
    if jsTrim s.newTaskTitle = "" ∨ MAX_CHARACTERS < s.newTaskDescription.length then s
    else
      { s with
        tasks := s.tasks ++
          [⟨idv, s.newTaskTitle, s.newTaskDescription, s.newTaskStatus, date⟩],
        isLoading := false, isAddModalOpen := false,
        newTaskTitle := "", newTaskDescription := "", newTaskStatus := .Pending }
  | .openEdit t => { s with currentTask := some t, isEditModalOpen := true }
  | .cancelEdit => { s with isEditModalOpen := false }
  | .submitEdit =>
    match s.currentTask with
    | none => s
    | some c =>
      if c.description.length ≤ MAX_CHARACTERS then
        { s with tasks := s.tasks.map (fun t => if t.id = c.id then c else t),
                 isEditModalOpen := false }
      else s
  | .openDelete t =>
    { s with pendingTaskToDelete := some t,
             confirmMessage :=
               "Are you sure you want to delete the task titled \"" ++ t.title ++ "\"?",
             isDeleteModalOpen := true }
  | .cancelDelete =>
    { s with isDeleteModalOpen := false, pendingTaskToDelete := none,
             confirmMessage := "" }
  | .confirmDelete =>
    { s with tasks := deleteTask s.tasks s.pendingTaskToDelete,
             isDeleteModalOpen := false, pendingTaskToDelete := none,
             confirmMessage := "" }

/-- Number of modal-open flags that are set. -/
def openFlagsCount (s : AppState) : Nat :=
  (cond s.isAddModalOpen 1 0) + (cond s.isEditModalOpen 1 0) +
    (cond s.isDeleteModalOpen 1 0)

/-- The slice of component state involved in one in-flight `addTask` call:
`pendingAdd` records that a submission has passed the guard and is
awaiting its simulated-latency timer. -/
structure AddFlowState where
  tasks : List Task
  newTaskTitle : String
  newTaskDescription : String
  newTaskStatus : TaskStatus
  isAddModalOpen : Bool
  isLoading : Bool
  pendingAdd : Bool
deriving DecidableEq

/-- Events of the add flow with the simulated latency made explicit. -/
inductive AddFlowEvent
  | submitStart
  | cancelAdd
  | timerComplete (idv date : String)

/-- Small-step semantics of `addTask` and `handleCancelAddTask`:
`submitStart` is the synchronous part of `addTask` before the `await`
(the guard, then `isLoading = true`); `cancelAdd` is
`handleCancelAddTask` (reset the draft, close the modal); `timerComplete`
is the rest of `addTask` after the `await`, which re-reads the draft
fields at completion time to build the appended task. -/
def addFlowStep (s : AddFlowState) : AddFlowEvent → AddFlowState
  | .submitStart =>
    if jsTrim s.newTaskTitle = "" ∨ MAX_CHARACTERS < s.newTaskDescription.length then s
    else { s with isLoading := true, pendingAdd := true }
  | .cancelAdd =>
    { s with newTaskTitle := "", newTaskDescription := "",
             newTaskStatus := .Pending, isAddModalOpen := false }
  | .timerComplete idv date =>
    if s.pendingAdd then
      { s with
        tasks := s.tasks ++
          [⟨idv, s.newTaskTitle, s.newTaskDescription, s.newTaskStatus, date⟩],
        isLoading := false, isAddModalOpen := false,
        newTaskTitle := "", newTaskDescription := "", newTaskStatus := .Pending,
        pendingAdd := false }
    else s

/-- Run a sequence of add-flow events. -/
def runAddFlow (s : AddFlowState) (evs : List AddFlowEvent) : AddFlowState :=
  evs.foldl addFlowStep s

/-- A sample stored task used in concrete witnesses. -/
def demoTask : Task :=
  ⟨"1", "Buy milk", "Get two liters of milk", .Pending, "2026-10-11"⟩

/-- A second sample stored task used in concrete witnesses. -/
def demoTask2 : Task :=
  ⟨"2", "Write report", "Quarterly summary", .Completed, "2026-10-11"⟩

/-- A sample collection used in concrete witnesses. -/
def demoTasks : List Task := [demoTask, demoTask2]

/-- A description string of exactly `MAX_CHARACTERS` characters. -/
def descAtLimit : String := ⟨List.replicate 500 'a'⟩

/-- A description string of `MAX_CHARACTERS + 1` characters. -/
def descOverLimit : String := ⟨List.replicate 501 'a'⟩

/-- An add-flow state whose draft passes the `addTask` guard. -/
def demoAddFlowState : AddFlowState :=
  ⟨[], "Buy milk", "Get two liters of milk", .Pending, true, false, false⟩

/-- An edit draft whose title is whitespace-only, targeting the stored
task with id 1. -/
def wsDraft : Task := ⟨"1", "   ", "short", .Pending, "2026-10-11"⟩

/-- A concrete handler sequence: bootstrap, one add, one edit-save of the
added task, one confirmed delete. -/
def demoSteps : List StoreStep :=
  [.init "a" "b" "c" "d",
   .add "Buy milk" "Get milk" .Pending "9" "2026-10-11",
   .save (some ⟨"9", "Buy milk", "Get more milk", .Pending, "2026-10-11"⟩),
   .del (some demoTask2)]

/-- Helper: when the guard trips, `addTask` leaves the collection alone. -/
theorem addTask_noop_of (ts : List Task) (title desc : String) (st : TaskStatus)
    (idv date : String) (h : jsTrim title = "" ∨ MAX_CHARACTERS < desc.length) :
    addTask ts title desc st idv date = ts := by
  simp only [addTask]
  exact if_pos h

/-- Helper: when the guard passes, `addTask` appends the submitted task. -/
theorem addTask_append_of (ts : List Task) (title desc : String) (st : TaskStatus)
    (idv date : String) (h1 : jsTrim title ≠ "") (h2 : desc.length ≤ MAX_CHARACTERS) :
    addTask ts title desc st idv date = ts ++ [⟨idv, title, desc, st, date⟩] := by
  simp only [addTask]
  rw [if_neg]
  push_neg
  exact ⟨h1, h2⟩

/-- Helper: two filter passes fuse into one with the conjoined predicate. -/
theorem filter_filter_and {α : Type} (p q : α → Bool) (l : List α) :
    (l.filter p).filter q = l.filter (fun a => p a && q a) := by
  induction l with
  | nil => rfl
  | cons a l ih =>
    by_cases hp : p a = true <;> by_cases hq : q a = true <;>
      simp [List.filter_cons, hp, hq, ih]

/-- C2: a draft whose title is empty or whitespace-only, or whose
description exceeds MAX_CHARACTERS, is rejected by the add handler and the
collection is unchanged; a description of exactly MAX_CHARACTERS characters
is accepted (appended) and one of MAX_CHARACTERS + 1 is rejected. -/
theorem addTask_validation_boundary (ts : List Task) (title desc : String)
    (st : TaskStatus) (idv date : String) :
    ((jsTrim title = "" ∨ MAX_CHARACTERS < desc.length) →
        addTask ts title desc st idv date = ts)
    ∧ (jsTrim title ≠ "" → desc.length = MAX_CHARACTERS →
        addTask ts title desc st idv date = ts ++ [⟨idv, title, desc, st, date⟩])
    ∧ (desc.length = MAX_CHARACTERS + 1 → addTask ts title desc st idv date = ts) := by
  refine ⟨fun h => addTask_noop_of ts title desc st idv date h,
          fun h1 h2 => addTask_append_of ts title desc st idv date h1 (Nat.le_of_eq h2),
          fun h => addTask_noop_of ts title desc st idv date (Or.inr ?_)⟩
  omega

/-- Witness for C2 at concrete inputs: a 500-character description is
accepted, a 501-character one is rejected, and a whitespace-only title is
rejected. -/
theorem addTask_validation_boundary_witness :
    (descAtLimit.length = MAX_CHARACTERS
      ∧ addTask [] "t" descAtLimit .Pending "i" "d"
          = [⟨"i", "t", descAtLimit, .Pending, "d"⟩])
    ∧ (descOverLimit.length = MAX_CHARACTERS + 1
      ∧ addTask [] "t" descOverLimit .Pending "i" "d" = [])
    ∧ addTask [] "  " "x" .Pending "i" "d" = [] :=
  ⟨⟨by decide,
    (addTask_validation_boundary [] "t" descAtLimit .Pending "i" "d").2.1
      (by decide) (by decide)⟩,
   ⟨by decide,
    (addTask_validation_boundary [] "t" descOverLimit .Pending "i" "d").2.2
      (by decide)⟩,
   (addTask_validation_boundary [] "  " "x" .Pending "i" "d").1
     (Or.inl (by decide))⟩

/-- C7: for a valid draft the add handler appends exactly one task at the
end, carrying the submitted title, description and status together with
the freshly generated id and date, leaving every prior task in place. -/
theorem addTask_appends_new_task (ts : List Task) (title desc : String)
    (st : TaskStatus) (idv date : String)
    (h1 : jsTrim title ≠ "") (h2 : desc.length ≤ MAX_CHARACTERS) :
    addTask ts title desc st idv date = ts ++ [⟨idv, title, desc, st, date⟩] :=
  addTask_append_of ts title desc st idv date h1 h2

/-- Witness for C7 at a concrete valid draft. -/
theorem addTask_appends_new_task_witness :
    jsTrim "Buy bread" ≠ "" ∧ ("Fresh loaf" : String).length ≤ MAX_CHARACTERS
    ∧ addTask demoTasks "Buy bread" "Fresh loaf" .Pending "9" "2026-10-11"
        = demoTasks ++ [⟨"9", "Buy bread", "Fresh loaf", .Pending, "2026-10-11"⟩] :=
  ⟨by decide, by decide,
   addTask_appends_new_task demoTasks "Buy bread" "Fresh loaf" .Pending "9"
     "2026-10-11" (by decide) (by decide)⟩

/-- C8: when no stored task carries the targeted id, both edit-save and
confirmed delete leave the collection exactly as it was, raising no error. -/
theorem update_remove_absent_noop (ts : List Task) (c p : Task)
    (h1 : ∀ t ∈ ts, t.id ≠ c.id) (h2 : ∀ t ∈ ts, t.id ≠ p.id) :
    saveEditedTask ts (some c) = ts ∧ deleteTask ts (some p) = ts := by
  constructor
  · simp only [saveEditedTask]
    by_cases hd : c.description.length ≤ MAX_CHARACTERS
    · rw [if_pos hd]
      have hmap : ∀ t ∈ ts, (if t.id = c.id then c else t) = t :=
        fun t ht => if_neg (h1 t ht)
      rw [List.map_congr_left hmap]
      simp
    · exact if_neg hd
  · simp only [deleteTask]
    refine List.filter_eq_self.mpr fun t ht => ?_
    simp [h2 t ht]

/-- Witness for C8: saving a draft with an unknown id and deleting an
unknown id both leave a concrete two-task store untouched. -/
theorem update_remove_absent_noop_witness :
    (∀ t ∈ demoTasks, t.id ≠ "77") ∧ (∀ t ∈ demoTasks, t.id ≠ "88")
    ∧ saveEditedTask demoTasks (some ⟨"77", "Ghost", "none", .Pending, "d"⟩) = demoTasks
    ∧ deleteTask demoTasks (some ⟨"88", "Ghost", "none", .Pending, "d"⟩) = demoTasks :=
  ⟨by decide, by decide,
   (update_remove_absent_noop demoTasks ⟨"77", "Ghost", "none", .Pending, "d"⟩
      ⟨"88", "Ghost", "none", .Pending, "d"⟩ (by decide) (by decide)).1,
   (update_remove_absent_noop demoTasks ⟨"77", "Ghost", "none", .Pending, "d"⟩
      ⟨"88", "Ghost", "none", .Pending, "d"⟩ (by decide) (by decide)).2⟩

/-- C10: the search term is never trimmed: every non-empty term, including
whitespace-only terms, switches the substring filter on (applied with the
literal term), and only the exact empty string disables it. -/
theorem search_term_not_trimmed (ts : List Task) (f : StatusFilter) (q : String) :
    (q ≠ "" → filteredTasks ts q f = (filterByStatus ts f).filter (matchesSearch q))
    ∧ filteredTasks ts "" f = filterByStatus ts f := by
  constructor
  · intro hq
    simp [filteredTasks, hq]
  · simp [filteredTasks]

/-- Helper: lowercasing maps exactly the empty string to the empty string. -/
theorem jsToLower_eq_empty_iff (q : String) : jsToLower q = "" ↔ q = "" := by
  obtain ⟨l⟩ := q
  constructor <;> intro he
  · have hd : l.map Char.toLower = [] := congrArg String.data he
    have hl : l = [] := List.map_eq_nil_iff.mp hd
    rw [hl]
  · rw [he]
    rfl

/-- C1: the derived visible set coincides with the reference definition
(keep exactly the tasks passing the status predicate and the search
predicate), it is a subsequence of the input collection, and membership is
exactly characterised by the two predicates. -/
theorem filteredTasks_matches_reference (ts : List Task) (q : String)
    (f : StatusFilter) :
    filteredTasks ts q f = filteredTasksRef ts q f
    ∧ List.Sublist (filteredTasks ts q f) ts
    ∧ ∀ t, t ∈ filteredTasks ts q f ↔
        t ∈ ts ∧ statusMatches f t = true ∧ searchPasses q t = true := by
  have href : filteredTasks ts q f = filteredTasksRef ts q f := by
    by_cases hq : q = ""
    · subst hq
      cases f with
      | All =>
        simp [filteredTasks, filteredTasksRef, filterByStatus, statusMatches,
          searchPasses]
      | only s =>
        simp [filteredTasks, filteredTasksRef, filterByStatus, statusMatches,
          searchPasses]
    · cases f with
      | All =>
        simp [filteredTasks, filteredTasksRef, filterByStatus, statusMatches,
          searchPasses, hq]
      | only s =>
        simp only [filteredTasks, filteredTasksRef, filterByStatus, if_neg hq]
        rw [filter_filter_and]
        refine List.filter_congr fun t _ => ?_
        simp [statusMatches, searchPasses, hq]
  refine ⟨href, ?_, fun t => ?_⟩
  · rw [href]
    simp only [filteredTasksRef]
    exact List.filter_sublist ts
  · rw [href]
    simp [filteredTasksRef, List.mem_filter, and_assoc]

/-- C9: the search is case-insensitive: two search terms with the same
lowercasing produce identical derived sets for every collection and
status filter. -/
theorem search_case_insensitive (ts : List Task) (f : StatusFilter)
    (q1 q2 : String) (h : jsToLower q1 = jsToLower q2) :
    filteredTasks ts q1 f = filteredTasks ts q2 f := by
  have hempty : (q1 = "") ↔ (q2 = "") := by
    rw [← jsToLower_eq_empty_iff q1, ← jsToLower_eq_empty_iff q2, h]
  by_cases hq : q1 = ""
  · rw [hq, hempty.mp hq]
  · have hq2 : q2 ≠ "" := fun he => hq (hempty.mpr he)
    have hms : matchesSearch q1 = matchesSearch q2 := by
      funext t
      simp only [matchesSearch, h]
    simp [filteredTasks, hq, hq2, hms]

/-- Witness for C9: searching a concrete store for MILK and for milk
yields the same visible set. -/
theorem search_case_insensitive_witness :
    jsToLower "MILK" = jsToLower "milk"
    ∧ filteredTasks demoTasks "MILK" .All = filteredTasks demoTasks "milk" .All :=
  ⟨by decide, search_case_insensitive demoTasks .All "MILK" "milk" (by decide)⟩

/-- Helper: every handler invocation preserves the description-length
bound on every stored task. -/
theorem descInv_applyStep (ts : List Task) (st : StoreStep)
    (h : ∀ t ∈ ts, t.description.length ≤ MAX_CHARACTERS) :
    ∀ t ∈ applyStep ts st, t.description.length ≤ MAX_CHARACTERS := by
  cases st with
  | init d1 d2 d3 d4 =>
    intro t ht
    simp only [applyStep, initialTasks, List.mem_cons, List.not_mem_nil,
      or_false] at ht
    rcases ht with rfl | rfl | rfl | rfl
    · show seedDescription1.length ≤ MAX_CHARACTERS
      decide
    · show seedDescription2.length ≤ MAX_CHARACTERS
      decide
    · show seedDescription3.length ≤ MAX_CHARACTERS
      decide
    · show seedDescription4.length ≤ MAX_CHARACTERS
      decide
  | add title desc stt idv date =>
    intro t ht
    simp only [applyStep] at ht
    rcases Decidable.em (jsTrim title = "" ∨ MAX_CHARACTERS < desc.length) with hg | hg
    · rw [addTask_noop_of ts title desc stt idv date hg] at ht
      exact h t ht
    · push_neg at hg
      rw [addTask_append_of ts title desc stt idv date hg.1 hg.2] at ht
      rcases List.mem_append.mp ht with hin | hin
      · exact h t hin
      · simp only [List.mem_singleton] at hin
        subst hin
        exact hg.2
  | save cur =>
    intro t ht
    cases cur with
    | none => exact h t ht
    | some c =>
      simp only [applyStep, saveEditedTask] at ht
      by_cases hd : c.description.length ≤ MAX_CHARACTERS
      · rw [if_pos hd] at ht
        obtain ⟨a, ha, hfa⟩ := List.mem_map.mp ht
        by_cases hid : a.id = c.id
        · rw [if_pos hid] at hfa
          rw [← hfa]
          exact hd
        · rw [if_neg hid] at hfa
          rw [← hfa]
          exact h a ha
      · rw [if_neg hd] at ht
        exact h t ht
  | del pending =>
    intro t ht
    cases pending with
    | none => exact h t ht
    | some p =>
      simp only [applyStep, deleteTask] at ht
      exact h t (List.mem_filter.mp ht).1

/-- Helper: the description-length bound is preserved along any handler
sequence. -/
theorem descInv_foldl (steps : List StoreStep) :
    ∀ ts, (∀ t ∈ ts, t.description.length ≤ MAX_CHARACTERS) →
      ∀ t ∈ List.foldl applyStep ts steps, t.description.length ≤ MAX_CHARACTERS := by
  induction steps with
  | nil =>
    intro ts h
    simpa using h
  | cons s rest ih =>
    intro ts h
    exact ih _ (descInv_applyStep ts s h)

/-- C3: in every state reachable by bootstrap, add, edit-save and delete
handler invocations, every stored task's description is at most
MAX_CHARACTERS characters long (the bootstrap seed itself satisfies the
bound; its longest description has 491 characters). -/
theorem description_length_invariant (steps : List StoreStep) :
    ∀ t ∈ runSteps steps, t.description.length ≤ MAX_CHARACTERS := by
  refine descInv_foldl steps [] ?_
  intro t ht
  exact absurd ht (List.not_mem_nil t)

/-- Witness for C3: the task edited into the store along a concrete
bootstrap/add/save/delete sequence satisfies the length bound. -/
theorem description_length_invariant_witness :
    (⟨"9", "Buy milk", "Get more milk", .Pending, "2026-10-11"⟩ : Task)
        ∈ runSteps demoSteps
    ∧ (Task.mk "9" "Buy milk" "Get more milk" .Pending
        "2026-10-11").description.length ≤ MAX_CHARACTERS :=
  ⟨by decide, description_length_invariant demoSteps _ (by decide)⟩

/-- C4 (bug exhibit): `saveEditedTask` checks only the description length,
so an edit draft whose title is whitespace-only is stored verbatim and the
collection then contains a task with a whitespace-only title. -/
theorem saveEditedTask_stores_blank_title :
    jsTrim wsDraft.title = ""
    ∧ saveEditedTask [demoTask] (some wsDraft) = [wsDraft] := by
  constructor
  · decide
  · decide

/-- C5 (counterexample): submitting a valid draft, cancelling the add
modal, then letting the simulated-latency timer fire does add a task: the
completion re-reads the reset draft and appends an empty-titled task, so
the collection does change. -/
theorem cancel_pending_add_cex :
    (runAddFlow demoAddFlowState
        [.submitStart, .cancelAdd, .timerComplete "id9" "2026-10-11"]).tasks
      = [⟨"id9", "", "", .Pending, "2026-10-11"⟩]
    ∧ (runAddFlow demoAddFlowState
        [.submitStart, .cancelAdd, .timerComplete "id9" "2026-10-11"]).tasks
      ≠ demoAddFlowState.tasks := by
  constructor
  · decide
  · decide

/-- C5 (amended): cancelling after a guard-passing submission does not
void the pending completion: when the timer fires, the handler re-reads
the draft (already reset by the cancel) and appends a task with empty
title, empty description and status Pending. -/
theorem cancel_pending_add_appends (s : AddFlowState) (idv date : String)
    (h1 : jsTrim s.newTaskTitle ≠ "")
    (h2 : s.newTaskDescription.length ≤ MAX_CHARACTERS) :
    (runAddFlow s [.submitStart, .cancelAdd, .timerComplete idv date]).tasks
      = s.tasks ++ [⟨idv, "", "", .Pending, date⟩] := by
  have hg : ¬(jsTrim s.newTaskTitle = "" ∨
      MAX_CHARACTERS < s.newTaskDescription.length) := by
    push_neg
    exact ⟨h1, h2⟩
  simp [runAddFlow, addFlowStep, hg]

/-- Witness for C5's amended claim at a concrete guard-passing state. -/
theorem cancel_pending_add_appends_witness :
    jsTrim demoAddFlowState.newTaskTitle ≠ ""
    ∧ demoAddFlowState.newTaskDescription.length ≤ MAX_CHARACTERS
    ∧ (runAddFlow demoAddFlowState
        [.submitStart, .cancelAdd, .timerComplete "id9" "2026-10-11"]).tasks
      = demoAddFlowState.tasks ++ [⟨"id9", "", "", .Pending, "2026-10-11"⟩] :=
  ⟨by decide, by decide,
   cancel_pending_add_appends demoAddFlowState "id9" "2026-10-11" (by decide)
     (by decide)⟩

/-- C6 (counterexample): no open handler closes the other modals, so the
sequence openEditModal then openDeleteModal leaves both the edit and the
delete modal flags true at once. -/
theorem modal_stacking_cex :
    (applyUI (applyUI initialAppState (.openEdit demoTask))
        (.openDelete demoTask)).isEditModalOpen = true
    ∧ (applyUI (applyUI initialAppState (.openEdit demoTask))
        (.openDelete demoTask)).isDeleteModalOpen = true := by
  constructor
  · rfl
  · rfl

/-- C6 (amended): from a state with every modal closed, any single
open/cancel/submit operation leaves at most one modal flag set; the
exclusivity is only this one-step property, since consecutive opens
without an intervening close stack two flags. -/
theorem modal_single_op_from_idle (s : AppState) (op : UIOp)
    (h1 : s.isAddModalOpen = false) (h2 : s.isEditModalOpen = false)
    (h3 : s.isDeleteModalOpen = false) :
    openFlagsCount (applyUI s op) ≤ 1 := by
  cases op with
  | openAdd => simp [applyUI, openFlagsCount, h2, h3]
  | cancelAdd => simp [applyUI, openFlagsCount, h2, h3]
  | submitAdd idv date =>
    simp only [applyUI]
    split
    · simp [openFlagsCount, h1, h2, h3]
    · simp [openFlagsCount, h2, h3]
  | openEdit t => simp [applyUI, openFlagsCount, h1, h3]
  | cancelEdit => simp [applyUI, openFlagsCount, h1, h3]
  | submitEdit =>
    rcases hs : s.currentTask with _ | c
    · simp [applyUI, hs, openFlagsCount, h1, h2, h3]
    · simp only [applyUI, hs]
      split
      · simp [openFlagsCount, h1, h3]
      · simp [openFlagsCount, h1, h2, h3]
  | openDelete t => simp [applyUI, openFlagsCount, h1, h2]
  | cancelDelete => simp [applyUI, openFlagsCount, h1, h2]
  | confirmDelete => simp [applyUI, openFlagsCount, h1, h2]

/-- Witness for C6's amended claim: opening the add modal from the idle
initial state leaves at most one modal flag set. -/
theorem modal_single_op_from_idle_witness :
    initialAppState.isAddModalOpen = false
    ∧ initialAppState.isEditModalOpen = false
    ∧ initialAppState.isDeleteModalOpen = false
    ∧ openFlagsCount (applyUI initialAppState .openAdd) ≤ 1 :=
  ⟨rfl, rfl, rfl, modal_single_op_from_idle initialAppState .openAdd rfl rfl rfl⟩

/-- Witness for C10: a single-space search term is treated as non-empty
and filters a concrete store with the literal space. -/
theorem search_term_not_trimmed_witness :
    (" " : String) ≠ ""
    ∧ filteredTasks demoTasks " " .All
        = (filterByStatus demoTasks .All).filter (matchesSearch " ") :=
  ⟨by decide, (search_term_not_trimmed demoTasks .All " ").1 (by decide)⟩

end TaskApp
